import Mathlib

/-!
Verification development for the Claude-to-Gemini chat-export converter
(`streamlit_app.py`).  The JSON data the converter traverses is modelled by
an inductive `Json` type; Python's dynamic field-access semantics (strict
subscript vs defaulting `.get`, iteration, `.strip()`) are modelled by
explicit `Except`-valued helpers; Python exceptions are modelled by the
`PyError` type.  The tokenizer is an abstract parameter `tok : String → Nat`,
matching the injected-capability view of the tokenizer.
-/

set_option maxRecDepth 4000

/-- A JSON value.  Numbers are modelled as rationals (the converter never
computes with them; they only occur as fixed literals of the output
envelope). -/
inductive Json where
  | null : Json
  | bool (b : Bool) : Json
  | num (q : Rat) : Json
  | str (s : String) : Json
  | arr (elems : List Json) : Json
  | obj (fields : List (String × Json)) : Json

/-- Python exceptions the converter can raise.  `valueError` is the spec's
`InvalidInputError`, `keyError` the spec's `MalformedInputError`;
`typeError` and `attributeError` are outside the spec's taxonomy. -/
inductive PyError where
  | valueError (msg : String) : PyError
  | keyError (key : String) : PyError
  | typeError (msg : String) : PyError
  | attributeError (msg : String) : PyError
deriving DecidableEq, Repr

/-- `dict.get(key, default)` on a JSON object's field list. -/
def dictGet (fields : List (String × Json)) (key : String) (dflt : Json) : Json :=
  match fields.lookup key with
  | some v => v
  | none => dflt

/-- Python `value == "s"`: string equality, `False` (never an error) when the
value is not a string. -/
def jsonEqStr : Json → String → Bool
  | .str s, t => s == t
  | _, _ => false

/-- Python iteration `for x in v`: lists yield their elements, strings yield
their characters (as one-character strings), dicts yield their keys; other
values raise `TypeError`. -/
def pyIter : Json → Except PyError (List Json)
  | .arr xs => .ok xs
  | .str s => .ok (s.data.map fun c => .str (String.mk [c]))
  | .obj fields => .ok (fields.map fun kv => .str kv.1)
  | _ => .error (.typeError "object is not iterable")

/-- Characters removed by Python `str.strip()` (the ASCII whitespace
subset). -/
def pySpace (c : Char) : Bool :=
  c = ' ' || c = '\t' || c = '\n' || c = '\r' || c = '\x0b' || c = '\x0c'

/-- Remove leading and trailing whitespace from a character list. -/
def stripChars (l : List Char) : List Char :=
  ((l.dropWhile pySpace).reverse.dropWhile pySpace).reverse

/-- Python `s.strip()` on a string. -/
def strip (s : String) : String :=
  String.mk (stripChars s.data)

/-- Python `v.strip()` on a JSON value: works on strings, raises
`AttributeError` otherwise. -/
def pyStrip : Json → Except PyError String
  | .str s => .ok (strip s)
  | _ => .error (.attributeError "object has no attribute strip")

/-- `count_tokens` (source lines 73–76): an empty string short-circuits to 0
without invoking the tokenizer `tok`. -/
def count_tokens (tok : String → Nat) (text : String) : Nat :=
  if text = "" then 0 else tok text

/-- One output chunk.  `isThought = false` models the absence of the
`isThought` key and `finishReason = none` the absence of `finishReason`. -/
structure Chunk where
  text : String
  role : String
  tokenCount : Nat
  isThought : Bool
  finishReason : Option String
deriving DecidableEq, Repr

/-- The `token_stats` record (source lines 112–119). -/
structure TokenStats where
  total_tokens : Nat
  user_tokens : Nat
  model_tokens : Nat
  thinking_tokens : Nat
  message_count : Nat
  has_thinking : Bool
deriving DecidableEq, Repr

/-- The zeroed statistics the converter starts from. -/
def zeroStats : TokenStats :=
  { total_tokens := 0, user_tokens := 0, model_tokens := 0,
    thinking_tokens := 0, message_count := 0, has_thinking := false }

/-- The fixed `runSettings` object (source lines 83–101). -/
def runSettingsValue : Json :=
  .obj [
    ("temperature", .num 1),
    ("model", .str "models/gemini-2.5-pro-preview-03-25"),
    ("topP", .num (0.95 : Rat)),
    ("topK", .num 64),
    ("maxOutputTokens", .num 65536),
    ("safetySettings", .arr [
      .obj [("category", .str "HARM_CATEGORY_HARASSMENT"), ("threshold", .str "OFF")],
      .obj [("category", .str "HARM_CATEGORY_HATE_SPEECH"), ("threshold", .str "OFF")],
      .obj [("category", .str "HARM_CATEGORY_SEXUALLY_EXPLICIT"), ("threshold", .str "OFF")],
      .obj [("category", .str "HARM_CATEGORY_DANGEROUS_CONTENT"), ("threshold", .str "OFF")]]),
    ("responseMimeType", .str "text/plain"),
    ("enableCodeExecution", .bool false),
    ("enableEnhancedCivicAnswers", .bool true),
    ("enableSearchAsATool", .bool false),
    ("enableBrowseAsATool", .bool false),
    ("enableAutoFunctionResponse", .bool false)]

/-- The fixed `pendingInputs` list (source lines 105–108). -/
def pendingInputsValue : Json :=
  .arr [.obj [("text", Json.str ""), ("role", Json.str "user")]]

/-- The converted document: the fixed envelope plus the accumulated chunk
list (the source's `converted` dict, source lines 82–110). -/
structure ConvertedDocument where
  runSettings : Json
  systemInstruction : Json
  chunks : List Chunk
  pendingInputs : Json

/-- One iteration of the inner `for segment in msg.get("content", [])` loop
(source lines 125–159): branch on the strict `segment["type"]` lookup, trim
the defaulted payload, and on non-empty text append a chunk and update the
statistics. -/
def processSegment (tok : String → Nat) (role : String)
    (acc : List Chunk × TokenStats) (segment : Json) :
    Except PyError (List Chunk × TokenStats) :=
  match segment with
  | .obj fields =>
    match fields.lookup "type" with
    | none => .error (.keyError "type")
    | some ty =>
      if jsonEqStr ty "thinking" then
        match pyStrip (dictGet fields "thinking" (.str "")) with
        | .error e => .error e
        | .ok text =>
          if text ≠ "" then
            let tokenCount := count_tokens tok text
            .ok (acc.1 ++ [{ text := text, role := role, tokenCount := tokenCount,
                             isThought := true, finishReason := none }],
                 { acc.2 with
                   has_thinking := true,
                   total_tokens := acc.2.total_tokens + tokenCount,
                   thinking_tokens := acc.2.thinking_tokens + tokenCount })
          else .ok acc
      else if jsonEqStr ty "text" then
        match pyStrip (dictGet fields "text" (.str "")) with
        | .error e => .error e
        | .ok text =>
          if text ≠ "" then
            let tokenCount := count_tokens tok text
            .ok (acc.1 ++ [{ text := text, role := role, tokenCount := tokenCount,
                             isThought := false,
                             finishReason := if role = "model" then some "STOP" else none }],
                 { acc.2 with
                   total_tokens := acc.2.total_tokens + tokenCount,
                   user_tokens := if role = "user" then acc.2.user_tokens + tokenCount
                                  else acc.2.user_tokens,
                   model_tokens := if role = "user" then acc.2.model_tokens
                                   else acc.2.model_tokens + tokenCount })
          else .ok acc
      else .ok acc
  | .str _ => .error (.typeError "string indices must be integers")
  | .arr _ => .error (.typeError "list indices must be integers")
  | _ => .error (.typeError "object is not subscriptable")

/-- The inner loop over a message's segments. -/
def foldSegments (tok : String → Nat) (role : String) :
    List Json → (List Chunk × TokenStats) → Except PyError (List Chunk × TokenStats)
  | [], acc => .ok acc
  | seg :: rest, acc =>
    match processSegment tok role acc seg with
    | .error e => .error e
    | .ok acc2 => foldSegments tok role rest acc2

/-- One iteration of the outer `for msg in source_data.get("chat_messages", [])`
loop (source lines 121–159): strict `msg["sender"]` lookup resolves the role,
`message_count` is incremented, then the defaulted `content` is iterated. -/
def processMessage (tok : String → Nat)
    (acc : List Chunk × TokenStats) (msg : Json) :
    Except PyError (List Chunk × TokenStats) :=
  match msg with
  | .obj fields =>
    match fields.lookup "sender" with
    | none => .error (.keyError "sender")
    | some sender =>
      let role := if jsonEqStr sender "human" then "user" else "model"
      let acc1 := (acc.1, { acc.2 with message_count := acc.2.message_count + 1 })
      match pyIter (dictGet fields "content" (.arr [])) with
      | .error e => .error e
      | .ok segments => foldSegments tok role segments acc1
  | .str _ => .error (.typeError "string indices must be integers")
  | .arr _ => .error (.typeError "list indices must be integers")
  | _ => .error (.typeError "object is not subscriptable")

/-- The outer loop over all messages. -/
def foldMessages (tok : String → Nat) :
    List Json → (List Chunk × TokenStats) → Except PyError (List Chunk × TokenStats)
  | [], acc => .ok acc
  | msg :: rest, acc =>
    match processMessage tok acc msg with
    | .error e => .error e
    | .ok acc2 => foldMessages tok rest acc2

/-- `convert_claude_to_gemini` (source lines 78–161): validate that the input
is a mapping containing `chat_messages`, traverse all messages, and wrap the
accumulated chunks in the fixed envelope. -/
def convert_claude_to_gemini (tok : String → Nat) (source_data : Json) :
    Except PyError (ConvertedDocument × TokenStats) :=
  match source_data with
  | .obj fields =>
    if (fields.lookup "chat_messages").isSome then
      match pyIter (dictGet fields "chat_messages" (.arr [])) with
      | .error e => .error e
      | .ok messages =>
        match foldMessages tok messages ([], zeroStats) with
        | .error e => .error e
        | .ok (chunks, stats) =>
          .ok ({ runSettings := runSettingsValue,
                 systemInstruction := .obj [],
                 chunks := chunks,
                 pendingInputs := pendingInputsValue }, stats)
    else .error (.valueError "Invalid input: Expected a JSON object with chat_messages field")
  | _ => .error (.valueError "Invalid input: Expected a JSON object with chat_messages field")

/-- Python `s.replace(pat, rep)` on character lists for a non-empty pattern:
replace every non-overlapping occurrence, scanning left to right. -/
def replaceAll (pat rep : List Char) : List Char → List Char
  | [] => []
  | c :: cs =>
    if pat ≠ [] ∧ pat.isPrefixOf (c :: cs) then
      rep ++ replaceAll pat rep ((c :: cs).drop pat.length)
    else
      c :: replaceAll pat rep cs
termination_by l => l.length
decreasing_by
  · simp only [List.length_drop, List.length_cons]
    have hpat : pat.length ≥ 1 := by
      cases pat with
      | nil => simp at *
      | cons p ps => simp
    omega
  · simp

/-- Python `s.replace(pat, rep)` on strings. -/
def pyReplace (s pat rep : String) : String :=
  String.mk (replaceAll pat.data rep.data s.data)

/-- Python `s.endswith(suffix)`. -/
def pyEndsWith (s suffix : String) : Bool :=
  suffix.data.isSuffixOf s.data

/-- The derived output filename (source lines 242–244): replace every
occurrence of `".json"` by `"_gemini.json"`, then append `"_gemini.json"`
unless the name already ends with it. -/
def output_filename (name : String) : String :=
  let f := pyReplace name ".json" "_gemini.json"
  if pyEndsWith f "_gemini.json" then f else f ++ "_gemini.json"

/-! ### Derived views of the converter used to state the claims -/

/-- Componentwise sum of two statistics records (`has_thinking` is or-ed,
matching that the loop only ever sets it to `true`). -/
def statAdd (a b : TokenStats) : TokenStats :=
  { total_tokens := a.total_tokens + b.total_tokens,
    user_tokens := a.user_tokens + b.user_tokens,
    model_tokens := a.model_tokens + b.model_tokens,
    thinking_tokens := a.thinking_tokens + b.thinking_tokens,
    message_count := a.message_count + b.message_count,
    has_thinking := a.has_thinking || b.has_thinking }

/-- Sum of a list of statistics records. -/
def statSum (l : List TokenStats) : TokenStats :=
  l.foldr statAdd zeroStats

/-- The statistics record contributed by the `message_count` increment. -/
def oneMessageStats : TokenStats :=
  { zeroStats with message_count := 1 }

/-- The contribution of a single segment, run from an empty accumulator. -/
def segDelta (tok : String → Nat) (role : String) (seg : Json) :
    Except PyError (List Chunk × TokenStats) :=
  processSegment tok role ([], zeroStats) seg

/-- The chunks a single segment emits (empty on error). -/
def segChunks (tok : String → Nat) (role : String) (seg : Json) : List Chunk :=
  match segDelta tok role seg with
  | .ok p => p.1
  | .error _ => []

/-- The statistics a single segment contributes (zero on error). -/
def segStats (tok : String → Nat) (role : String) (seg : Json) : TokenStats :=
  match segDelta tok role seg with
  | .ok p => p.2
  | .error _ => zeroStats

/-- The contribution of a single message, run from an empty accumulator. -/
def msgDelta (tok : String → Nat) (msg : Json) :
    Except PyError (List Chunk × TokenStats) :=
  processMessage tok ([], zeroStats) msg

/-- The chunks a single message emits (empty on error). -/
def msgChunks (tok : String → Nat) (msg : Json) : List Chunk :=
  match msgDelta tok msg with
  | .ok p => p.1
  | .error _ => []

/-- The statistics a single message contributes (zero on error). -/
def msgStats (tok : String → Nat) (msg : Json) : TokenStats :=
  match msgDelta tok msg with
  | .ok p => p.2
  | .error _ => zeroStats

/-- The role a message's `sender` resolves to (`"model"` as an unreachable
default when the message has no sender). -/
def msgRole : Json → String
  | .obj fields =>
    match fields.lookup "sender" with
    | some sender => if jsonEqStr sender "human" then "user" else "model"
    | none => "model"
  | _ => "model"

/-- The segment list a message's defaulted `content` field iterates to
(empty as an unreachable default when iteration would fail). -/
def messageSegments : Json → List Json
  | .obj fields =>
    match pyIter (dictGet fields "content" (.arr [])) with
    | .ok segs => segs
    | .error _ => []
  | _ => []

/-- The trimmed payload string of a segment field, `""` when the field is
absent or not a string. -/
def trimmedPayload (fields : List (String × Json)) (key : String) : String :=
  match dictGet fields key (.str "") with
  | .str s => strip s
  | _ => ""

/-- Follows the spec's words: a segment is counted when it is a `text` or
`thinking` variant whose trimmed payload is non-empty. -/
def countedSegment : Json → Bool
  | .obj fields =>
    match fields.lookup "type" with
    | some ty =>
      if jsonEqStr ty "thinking" then trimmedPayload fields "thinking" ≠ ""
      else if jsonEqStr ty "text" then trimmedPayload fields "text" ≠ ""
      else false
    | none => false
  | _ => false

/-- Follows the spec's words: a `thinking`-variant segment with non-empty
trimmed text. -/
def spec_segIsThinking : Json → Bool
  | .obj fields =>
    match fields.lookup "type" with
    | some ty =>
      if jsonEqStr ty "thinking" then trimmedPayload fields "thinking" ≠ ""
      else false
    | none => false
  | _ => false

/-- Follows the spec's words: the token count contributed by a segment to
`thinking_tokens` (only `thinking`-variant segments with non-empty trimmed
text contribute). -/
def spec_segThinkingTokens (tok : String → Nat) : Json → Nat
  | .obj fields =>
    match fields.lookup "type" with
    | some ty =>
      if jsonEqStr ty "thinking" then
        if trimmedPayload fields "thinking" ≠ "" then
          count_tokens tok (trimmedPayload fields "thinking")
        else 0
      else 0
    | none => 0
  | _ => 0

/-- Follows the spec's words: the token count contributed by a segment to
its message's role bucket (only `text`-variant segments with non-empty
trimmed text contribute, never `thinking` ones). -/
def spec_segTextTokens (tok : String → Nat) : Json → Nat
  | .obj fields =>
    match fields.lookup "type" with
    | some ty =>
      if jsonEqStr ty "thinking" then 0
      else if jsonEqStr ty "text" then
        if trimmedPayload fields "text" ≠ "" then
          count_tokens tok (trimmedPayload fields "text")
        else 0
      else 0
    | none => 0
  | _ => 0

/-- Follows the spec's words: sum of token counts of non-empty `thinking`
segments across all messages. -/
def spec_thinkingTokens (tok : String → Nat) (msgs : List Json) : Nat :=
  (msgs.map fun m => ((messageSegments m).map (spec_segThinkingTokens tok)).sum).sum

/-- Follows the spec's words: sum of token counts of non-empty `text`
segments of the messages whose resolved role is `r`. -/
def spec_roleTokens (tok : String → Nat) (r : String) (msgs : List Json) : Nat :=
  (msgs.map fun m =>
    if msgRole m = r then ((messageSegments m).map (spec_segTextTokens tok)).sum else 0).sum

/-- Follows the spec's words: at least one `thinking`-variant segment had
non-empty trimmed text. -/
def spec_hasThinking (msgs : List Json) : Bool :=
  msgs.any fun m => (messageSegments m).any spec_segIsThinking

/-- Follows the spec's words (claim C9): the derived output filename is the
original name with its `".json"` suffix removed and `"_gemini.json"`
appended, or the original name with `"_gemini.json"` appended when there is
no `".json"` suffix. -/
def spec_output_filename (name : String) : String :=
  if ".json".data.isSuffixOf name.data then
    String.mk (name.data.take (name.data.length - 5)) ++ "_gemini.json"
  else
    name ++ "_gemini.json"

/-! ### Accumulator-shift lemmas: each loop iteration appends its own
contribution to whatever the accumulator already holds -/

lemma statAdd_zero (a : TokenStats) : statAdd a zeroStats = a := by
  cases a
  simp [statAdd, zeroStats]

lemma zero_statAdd (a : TokenStats) : statAdd zeroStats a = a := by
  cases a
  simp [statAdd, zeroStats]

lemma statAdd_assoc (a b c : TokenStats) :
    statAdd (statAdd a b) c = statAdd a (statAdd b c) := by
  cases a
  cases b
  cases c
  simp [statAdd, Nat.add_assoc, Bool.or_assoc]

lemma processSegment_shift (tok : String → Nat) (role : String) (seg : Json)
    (cs : List Chunk) (st : TokenStats) :
    processSegment tok role (cs, st) seg =
      (segDelta tok role seg).map fun p => (cs ++ p.1, statAdd st p.2) := by
  cases seg with
  | obj fields =>
    simp only [processSegment, segDelta]
    cases fields.lookup "type" with
    | none => rfl
    | some ty =>
      simp only []
      by_cases h1 : jsonEqStr ty "thinking" = true
      · simp only [h1, if_true]
        cases pyStrip (dictGet fields "thinking" (.str "")) with
        | error e => rfl
        | ok text =>
          by_cases h2 : text = ""
          · simp [h2, Except.map, statAdd_zero]
          · simp only [h2, ne_eq, not_false_iff, if_true, Except.map]
            cases st
            simp [statAdd, zeroStats]
      · simp only [Bool.not_eq_true] at h1
        simp only [h1, Bool.false_eq_true, if_false]
        by_cases h2 : jsonEqStr ty "text" = true
        · simp only [h2, if_true]
          cases pyStrip (dictGet fields "text" (.str "")) with
          | error e => rfl
          | ok text =>
            by_cases h3 : text = ""
            · simp [h3, Except.map, statAdd_zero]
            · simp only [h3, ne_eq, not_false_iff, if_true, Except.map]
              cases st
              by_cases h4 : role = "user"
              · simp [h4, statAdd, zeroStats]
              · simp [h4, statAdd, zeroStats]
        · simp only [Bool.not_eq_true] at h2
          simp only [h2, Bool.false_eq_true, if_false, Except.map]
          simp [statAdd_zero]
  | null => rfl
  | bool b => rfl
  | num q => rfl
  | str s => rfl
  | arr xs => rfl

lemma foldSegments_shift (tok : String → Nat) (role : String) (segs : List Json)
    (cs : List Chunk) (st : TokenStats) :
    foldSegments tok role segs (cs, st) =
      (foldSegments tok role segs ([], zeroStats)).map
        fun p => (cs ++ p.1, statAdd st p.2) := by
  induction segs generalizing cs st with
  | nil => simp [foldSegments, Except.map, statAdd_zero]
  | cons seg rest ih =>
    simp only [foldSegments]
    rw [processSegment_shift]
    have hseg : processSegment tok role ([], zeroStats) seg = segDelta tok role seg := rfl
    rw [hseg]
    cases hd : segDelta tok role seg with
    | error e => simp [Except.map]
    | ok p =>
      obtain ⟨pc, ps⟩ := p
      simp only [Except.map]
      rw [ih, ih pc ps]
      cases hrest : foldSegments tok role rest ([], zeroStats) with
      | error e => simp [Except.map]
      | ok q => simp [Except.map, List.append_assoc, statAdd_assoc]

lemma processMessage_shift (tok : String → Nat) (msg : Json)
    (cs : List Chunk) (st : TokenStats) :
    processMessage tok (cs, st) msg =
      (msgDelta tok msg).map fun p => (cs ++ p.1, statAdd st p.2) := by
  cases msg with
  | obj fields =>
    simp only [processMessage, msgDelta]
    cases fields.lookup "sender" with
    | none => rfl
    | some sender =>
      simp only []
      cases pyIter (dictGet fields "content" (.arr [])) with
      | error e => rfl
      | ok segs =>
        simp only []
        conv_lhs => rw [foldSegments_shift]
        conv_rhs => rw [foldSegments_shift]
        cases hrest : foldSegments tok
            (if jsonEqStr sender "human" then "user" else "model") segs ([], zeroStats) with
        | error e => simp [Except.map]
        | ok q =>
          obtain ⟨qc, qs⟩ := q
          cases st
          cases qs
          simp [Except.map, statAdd, zeroStats, Nat.add_assoc]
  | null => rfl
  | bool b => rfl
  | num q => rfl
  | str s => rfl
  | arr xs => rfl

lemma foldMessages_shift (tok : String → Nat) (msgs : List Json)
    (cs : List Chunk) (st : TokenStats) :
    foldMessages tok msgs (cs, st) =
      (foldMessages tok msgs ([], zeroStats)).map
        fun p => (cs ++ p.1, statAdd st p.2) := by
  induction msgs generalizing cs st with
  | nil => simp [foldMessages, Except.map, statAdd_zero]
  | cons msg rest ih =>
    simp only [foldMessages]
    rw [processMessage_shift]
    have hmsg : processMessage tok ([], zeroStats) msg = msgDelta tok msg := rfl
    rw [hmsg]
    cases hd : msgDelta tok msg with
    | error e => simp [Except.map]
    | ok p =>
      obtain ⟨pc, ps⟩ := p
      simp only [Except.map]
      rw [ih, ih pc ps]
      cases hrest : foldMessages tok rest ([], zeroStats) with
      | error e => simp [Except.map]
      | ok q => simp [Except.map, List.append_assoc, statAdd_assoc]

/-! ### Characterization of a single segment's contribution -/

lemma segDelta_ok (tok : String → Nat) (role : String) (seg : Json)
    (p : List Chunk × TokenStats) (h : segDelta tok role seg = .ok p) :
    ∃ fields ty, seg = .obj fields ∧ fields.lookup "type" = some ty ∧
      ((jsonEqStr ty "thinking" = true ∧
          ∃ s, dictGet fields "thinking" (.str "") = .str s ∧
            ((strip s = "" ∧ p = ([], zeroStats)) ∨
             (strip s ≠ "" ∧
               p = ([{ text := strip s, role := role,
                       tokenCount := count_tokens tok (strip s),
                       isThought := true, finishReason := none }],
                    { zeroStats with
                      total_tokens := count_tokens tok (strip s),
                      thinking_tokens := count_tokens tok (strip s),
                      has_thinking := true })))) ∨
       (jsonEqStr ty "thinking" = false ∧ jsonEqStr ty "text" = true ∧
          ∃ s, dictGet fields "text" (.str "") = .str s ∧
            ((strip s = "" ∧ p = ([], zeroStats)) ∨
             (strip s ≠ "" ∧
               p = ([{ text := strip s, role := role,
                       tokenCount := count_tokens tok (strip s),
                       isThought := false,
                       finishReason := if role = "model" then some "STOP" else none }],
                    { zeroStats with
                      total_tokens := count_tokens tok (strip s),
                      user_tokens := if role = "user" then count_tokens tok (strip s) else 0,
                      model_tokens := if role = "user" then 0 else count_tokens tok (strip s) })))) ∨
       (jsonEqStr ty "thinking" = false ∧ jsonEqStr ty "text" = false ∧ p = ([], zeroStats))) := by
  cases seg with
  | obj fields =>
    simp only [segDelta, processSegment] at h
    cases hty : fields.lookup "type" with
    | none =>
      rw [hty] at h
      exact absurd h (by simp)
    | some ty =>
      rw [hty] at h
      refine ⟨fields, ty, rfl, hty, ?_⟩
      by_cases h1 : jsonEqStr ty "thinking" = true
      · left
        refine ⟨h1, ?_⟩
        simp only [h1, if_true] at h
        cases hpay : dictGet fields "thinking" (.str "") with
        | str s =>
          rw [hpay] at h
          simp only [pyStrip] at h
          refine ⟨s, rfl, ?_⟩
          by_cases h2 : strip s = ""
          · simp only [h2, ne_eq, not_true_eq_false, if_false, Except.ok.injEq] at h
            exact Or.inl ⟨h2, h.symm⟩
          · simp only [h2, ne_eq, not_false_iff, if_true, Except.ok.injEq] at h
            refine Or.inr ⟨h2, ?_⟩
            rw [← h]
            simp [zeroStats]
        | null => rw [hpay] at h; exact absurd h (by simp [pyStrip])
        | bool b => rw [hpay] at h; exact absurd h (by simp [pyStrip])
        | num q => rw [hpay] at h; exact absurd h (by simp [pyStrip])
        | arr xs => rw [hpay] at h; exact absurd h (by simp [pyStrip])
        | obj fs => rw [hpay] at h; exact absurd h (by simp [pyStrip])
      · simp only [Bool.not_eq_true] at h1
        simp only [h1, Bool.false_eq_true, if_false] at h
        by_cases h2 : jsonEqStr ty "text" = true
        · right; left
          refine ⟨h1, h2, ?_⟩
          simp only [h2, if_true] at h
          cases hpay : dictGet fields "text" (.str "") with
          | str s =>
            rw [hpay] at h
            simp only [pyStrip] at h
            refine ⟨s, rfl, ?_⟩
            by_cases h3 : strip s = ""
            · simp only [h3, ne_eq, not_true_eq_false, if_false, Except.ok.injEq] at h
              exact Or.inl ⟨h3, h.symm⟩
            · simp only [h3, ne_eq, not_false_iff, if_true, Except.ok.injEq] at h
              refine Or.inr ⟨h3, ?_⟩
              rw [← h]
              simp [zeroStats]
          | null => rw [hpay] at h; exact absurd h (by simp [pyStrip])
          | bool b => rw [hpay] at h; exact absurd h (by simp [pyStrip])
          | num q => rw [hpay] at h; exact absurd h (by simp [pyStrip])
          | arr xs => rw [hpay] at h; exact absurd h (by simp [pyStrip])
          | obj fs => rw [hpay] at h; exact absurd h (by simp [pyStrip])
        · simp only [Bool.not_eq_true] at h2
          simp only [h2, Bool.false_eq_true, if_false, Except.ok.injEq] at h
          exact Or.inr (Or.inr ⟨h1, h2, h.symm⟩)
  | null => exact absurd h (by simp [segDelta, processSegment])
  | bool b => exact absurd h (by simp [segDelta, processSegment])
  | num q => exact absurd h (by simp [segDelta, processSegment])
  | str s => exact absurd h (by simp [segDelta, processSegment])
  | arr xs => exact absurd h (by simp [segDelta, processSegment])

/-! ### Decomposition of successful runs into per-item contributions -/

lemma statSum_cons (a : TokenStats) (l : List TokenStats) :
    statSum (a :: l) = statAdd a (statSum l) := rfl

lemma foldSegments_ok (tok : String → Nat) (role : String) (segs : List Json)
    (out : List Chunk × TokenStats)
    (h : foldSegments tok role segs ([], zeroStats) = .ok out) :
    out.1 = (segs.map (segChunks tok role)).flatten ∧
    out.2 = statSum (segs.map (segStats tok role)) ∧
    ∀ s ∈ segs, ∃ q, segDelta tok role s = .ok q := by
  induction segs generalizing out with
  | nil =>
    simp only [foldSegments, Except.ok.injEq] at h
    subst h
    simp [statSum]
  | cons seg rest ih =>
    simp only [foldSegments] at h
    have hseg : processSegment tok role ([], zeroStats) seg = segDelta tok role seg := rfl
    rw [hseg] at h
    cases hd : segDelta tok role seg with
    | error e => rw [hd] at h; exact absurd h (by simp)
    | ok q =>
      rw [hd] at h
      obtain ⟨qc, qs⟩ := q
      simp only [] at h
      rw [foldSegments_shift] at h
      cases hrest : foldSegments tok role rest ([], zeroStats) with
      | error e => rw [hrest] at h; exact absurd h (by simp [Except.map])
      | ok r =>
        rw [hrest] at h
        simp only [Except.map, Except.ok.injEq] at h
        obtain ⟨h1, h2, h3⟩ := ih r hrest
        constructor
        · rw [← h]
          simp only [List.map_cons, List.flatten_cons]
          rw [← h1]
          congr 1
          simp [segChunks, hd]
        constructor
        · rw [← h]
          simp only [List.map_cons, statSum_cons]
          rw [← h2]
          congr 1
          simp [segStats, hd]
        · intro s hs
          rcases List.mem_cons.mp hs with hs | hs
          · exact ⟨(qc, qs), hs ▸ hd⟩
          · exact h3 s hs

lemma msgDelta_ok (tok : String → Nat) (msg : Json)
    (p : List Chunk × TokenStats) (h : msgDelta tok msg = .ok p) :
    ∃ fields sender segs, msg = .obj fields ∧ fields.lookup "sender" = some sender ∧
      pyIter (dictGet fields "content" (.arr [])) = .ok segs ∧
      msgRole msg = (if jsonEqStr sender "human" then "user" else "model") ∧
      messageSegments msg = segs ∧
      p.1 = (segs.map (segChunks tok (msgRole msg))).flatten ∧
      p.2 = statAdd oneMessageStats (statSum (segs.map (segStats tok (msgRole msg)))) ∧
      ∀ s ∈ segs, ∃ q, segDelta tok (msgRole msg) s = .ok q := by
  cases msg with
  | obj fields =>
    simp only [msgDelta, processMessage] at h
    cases hsender : fields.lookup "sender" with
    | none => rw [hsender] at h; exact absurd h (by simp)
    | some sender =>
      rw [hsender] at h
      simp only [] at h
      cases hiter : pyIter (dictGet fields "content" (.arr [])) with
      | error e => rw [hiter] at h; exact absurd h (by simp)
      | ok segs =>
        rw [hiter] at h
        simp only [] at h
        have hrole : msgRole (Json.obj fields) =
            (if jsonEqStr sender "human" then "user" else "model") := by
          simp [msgRole, hsender]
        rw [foldSegments_shift] at h
        cases hrest : foldSegments tok
            (if jsonEqStr sender "human" then "user" else "model") segs ([], zeroStats) with
        | error e => rw [hrest] at h; exact absurd h (by simp [Except.map])
        | ok r =>
          rw [hrest] at h
          simp only [Except.map, Except.ok.injEq] at h
          obtain ⟨h1, h2, h3⟩ := foldSegments_ok tok _ segs r hrest
          refine ⟨fields, sender, segs, rfl, hsender, hiter, hrole, ?_, ?_, ?_, ?_⟩
          · simp [messageSegments, hiter]
          · rw [← h]
            show [] ++ r.1 = _
            rw [h1, hrole]
            simp
          · rw [← h]
            show statAdd _ r.2 = _
            rw [h2, hrole]
            rfl
          · rw [hrole]
            exact h3
  | null => exact absurd h (by simp [msgDelta, processMessage])
  | bool b => exact absurd h (by simp [msgDelta, processMessage])
  | num q => exact absurd h (by simp [msgDelta, processMessage])
  | str s => exact absurd h (by simp [msgDelta, processMessage])
  | arr xs => exact absurd h (by simp [msgDelta, processMessage])

lemma foldMessages_ok (tok : String → Nat) (msgs : List Json)
    (out : List Chunk × TokenStats)
    (h : foldMessages tok msgs ([], zeroStats) = .ok out) :
    out.1 = (msgs.map (msgChunks tok)).flatten ∧
    out.2 = statSum (msgs.map (msgStats tok)) ∧
    ∀ m ∈ msgs, ∃ p, msgDelta tok m = .ok p := by
  induction msgs generalizing out with
  | nil =>
    simp only [foldMessages, Except.ok.injEq] at h
    subst h
    simp [statSum]
  | cons msg rest ih =>
    simp only [foldMessages] at h
    have hmsg : processMessage tok ([], zeroStats) msg = msgDelta tok msg := rfl
    rw [hmsg] at h
    cases hd : msgDelta tok msg with
    | error e => rw [hd] at h; exact absurd h (by simp)
    | ok q =>
      rw [hd] at h
      obtain ⟨qc, qs⟩ := q
      simp only [] at h
      rw [foldMessages_shift] at h
      cases hrest : foldMessages tok rest ([], zeroStats) with
      | error e => rw [hrest] at h; exact absurd h (by simp [Except.map])
      | ok r =>
        rw [hrest] at h
        simp only [Except.map, Except.ok.injEq] at h
        obtain ⟨h1, h2, h3⟩ := ih r hrest
        constructor
        · rw [← h]
          simp only [List.map_cons, List.flatten_cons]
          rw [← h1]
          congr 1
          simp [msgChunks, hd]
        constructor
        · rw [← h]
          simp only [List.map_cons, statSum_cons]
          rw [← h2]
          congr 1
          simp [msgStats, hd]
        · intro m hm
          rcases List.mem_cons.mp hm with hm | hm
          · exact ⟨(qc, qs), hm ▸ hd⟩
          · exact h3 m hm

lemma convert_ok (tok : String → Nat) (src : Json)
    (doc : ConvertedDocument) (stats : TokenStats)
    (h : convert_claude_to_gemini tok src = .ok (doc, stats)) :
    ∃ fields msgs, src = .obj fields ∧ (fields.lookup "chat_messages").isSome ∧
      pyIter (dictGet fields "chat_messages" (.arr [])) = .ok msgs ∧
      doc.runSettings = runSettingsValue ∧
      doc.systemInstruction = .obj [] ∧
      doc.pendingInputs = pendingInputsValue ∧
      doc.chunks = (msgs.map (msgChunks tok)).flatten ∧
      stats = statSum (msgs.map (msgStats tok)) ∧
      ∀ m ∈ msgs, ∃ p, msgDelta tok m = .ok p := by
  cases src with
  | obj fields =>
    simp only [convert_claude_to_gemini] at h
    by_cases hkey : (fields.lookup "chat_messages").isSome
    · simp only [hkey, if_true] at h
      cases hiter : pyIter (dictGet fields "chat_messages" (.arr [])) with
      | error e => rw [hiter] at h; exact absurd h (by simp)
      | ok msgs =>
        rw [hiter] at h
        simp only [] at h
        cases hfold : foldMessages tok msgs ([], zeroStats) with
        | error e => rw [hfold] at h; exact absurd h (by simp)
        | ok out =>
          rw [hfold] at h
          obtain ⟨oc, os⟩ := out
          simp only [Except.ok.injEq, Prod.mk.injEq] at h
          obtain ⟨hdoc, hstats⟩ := h
          obtain ⟨h1, h2, h3⟩ := foldMessages_ok tok msgs (oc, os) hfold
          refine ⟨fields, msgs, rfl, hkey, hiter, ?_, ?_, ?_, ?_, ?_, h3⟩
          · rw [← hdoc]
          · rw [← hdoc]
          · rw [← hdoc]
          · rw [← hdoc]
            exact h1
          · rw [← hstats]
            exact h2
    · rw [if_neg hkey] at h
      exact absurd h (by simp)
  | null => exact absurd h (by simp [convert_claude_to_gemini])
  | bool b => exact absurd h (by simp [convert_claude_to_gemini])
  | num q => exact absurd h (by simp [convert_claude_to_gemini])
  | str s => exact absurd h (by simp [convert_claude_to_gemini])
  | arr xs => exact absurd h (by simp [convert_claude_to_gemini])

/-! ### Per-item facts derived from the characterizations -/

lemma segChunks_eq (tok : String → Nat) (role : String) (seg : Json)
    (q : List Chunk × TokenStats) (h : segDelta tok role seg = .ok q) :
    segChunks tok role seg = q.1 := by
  simp [segChunks, h]

lemma segStats_eq (tok : String → Nat) (role : String) (seg : Json)
    (q : List Chunk × TokenStats) (h : segDelta tok role seg = .ok q) :
    segStats tok role seg = q.2 := by
  simp [segStats, h]

lemma msgChunks_eq (tok : String → Nat) (msg : Json)
    (p : List Chunk × TokenStats) (h : msgDelta tok msg = .ok p) :
    msgChunks tok msg = p.1 := by
  simp [msgChunks, h]

lemma msgStats_eq (tok : String → Nat) (msg : Json)
    (p : List Chunk × TokenStats) (h : msgDelta tok msg = .ok p) :
    msgStats tok msg = p.2 := by
  simp [msgStats, h]

lemma segChunks_props (tok : String → Nat) (role : String) (seg : Json)
    (q : List Chunk × TokenStats) (h : segDelta tok role seg = .ok q)
    (c : Chunk) (hc : c ∈ q.1) :
    c.role = role ∧
    (c.finishReason = some "STOP" ↔ (c.role = "model" ∧ c.isThought = false)) ∧
    (c.isThought = true → c.finishReason = none) := by
  obtain ⟨fields, ty, hseg, hty, hcase⟩ := segDelta_ok tok role seg q h
  rcases hcase with ⟨h1, s, hpay, hcase⟩ | ⟨h1, h2, s, hpay, hcase⟩ | ⟨h1, h2, hq⟩
  · rcases hcase with ⟨he, hq⟩ | ⟨he, hq⟩
    · subst hq; simp at hc
    · subst hq
      simp only [List.mem_singleton] at hc
      subst hc
      simp
  · rcases hcase with ⟨he, hq⟩ | ⟨he, hq⟩
    · subst hq; simp at hc
    · subst hq
      simp only [List.mem_singleton] at hc
      subst hc
      by_cases hrole : role = "model"
      · simp [hrole]
      · simp only [hrole, if_false]
        simp [hrole]
  · subst hq; simp at hc

lemma segChunks_len (tok : String → Nat) (role : String) (seg : Json)
    (q : List Chunk × TokenStats) (h : segDelta tok role seg = .ok q) :
    q.1.length ≤ (if countedSegment seg = true then 1 else 0) := by
  obtain ⟨fields, ty, hseg, hty, hcase⟩ := segDelta_ok tok role seg q h
  subst hseg
  rcases hcase with ⟨h1, s, hpay, hcase⟩ | ⟨h1, h2, s, hpay, hcase⟩ | ⟨h1, h2, hq⟩
  · rcases hcase with ⟨he, hq⟩ | ⟨he, hq⟩
    · subst hq; simp
    · subst hq
      simp [countedSegment, hty, h1, trimmedPayload, hpay, he]
  · rcases hcase with ⟨he, hq⟩ | ⟨he, hq⟩
    · subst hq; simp
    · subst hq
      simp [countedSegment, hty, h1, h2, trimmedPayload, hpay, he]
  · subst hq; simp

lemma segStats_spec (tok : String → Nat) (role : String) (seg : Json)
    (q : List Chunk × TokenStats) (h : segDelta tok role seg = .ok q) :
    q.2.thinking_tokens = spec_segThinkingTokens tok seg ∧
    q.2.user_tokens = (if role = "user" then spec_segTextTokens tok seg else 0) ∧
    q.2.model_tokens = (if role = "user" then 0 else spec_segTextTokens tok seg) ∧
    q.2.message_count = 0 ∧
    q.2.has_thinking = spec_segIsThinking seg ∧
    q.2.total_tokens = q.2.user_tokens + q.2.model_tokens + q.2.thinking_tokens := by
  obtain ⟨fields, ty, hseg, hty, hcase⟩ := segDelta_ok tok role seg q h
  subst hseg
  rcases hcase with ⟨h1, s, hpay, hcase⟩ | ⟨h1, h2, s, hpay, hcase⟩ | ⟨h1, h2, hq⟩
  · rcases hcase with ⟨he, hq⟩ | ⟨he, hq⟩
    · subst hq
      simp [spec_segThinkingTokens, spec_segTextTokens, spec_segIsThinking,
        hty, h1, trimmedPayload, hpay, he, zeroStats]
    · subst hq
      simp [spec_segThinkingTokens, spec_segTextTokens, spec_segIsThinking,
        hty, h1, trimmedPayload, hpay, he, zeroStats]
  · rcases hcase with ⟨he, hq⟩ | ⟨he, hq⟩
    · subst hq
      simp [spec_segThinkingTokens, spec_segTextTokens, spec_segIsThinking,
        hty, h1, h2, trimmedPayload, hpay, he, zeroStats]
    · subst hq
      by_cases hrole : role = "user"
      · simp [spec_segThinkingTokens, spec_segTextTokens, spec_segIsThinking,
          hty, h1, h2, trimmedPayload, hpay, he, zeroStats, hrole]
      · simp [spec_segThinkingTokens, spec_segTextTokens, spec_segIsThinking,
          hty, h1, h2, trimmedPayload, hpay, he, zeroStats, hrole]
  · subst hq
    simp [spec_segThinkingTokens, spec_segTextTokens, spec_segIsThinking,
      hty, h1, h2, zeroStats]

lemma statSum_segStats (tok : String → Nat) (role : String) (segs : List Json)
    (hall : ∀ s ∈ segs, ∃ q, segDelta tok role s = .ok q) :
    (statSum (segs.map (segStats tok role))).thinking_tokens =
      (segs.map (spec_segThinkingTokens tok)).sum ∧
    (statSum (segs.map (segStats tok role))).user_tokens =
      (if role = "user" then (segs.map (spec_segTextTokens tok)).sum else 0) ∧
    (statSum (segs.map (segStats tok role))).model_tokens =
      (if role = "user" then 0 else (segs.map (spec_segTextTokens tok)).sum) ∧
    (statSum (segs.map (segStats tok role))).message_count = 0 ∧
    (statSum (segs.map (segStats tok role))).has_thinking =
      segs.any spec_segIsThinking ∧
    (statSum (segs.map (segStats tok role))).total_tokens =
      (statSum (segs.map (segStats tok role))).user_tokens +
      (statSum (segs.map (segStats tok role))).model_tokens +
      (statSum (segs.map (segStats tok role))).thinking_tokens := by
  induction segs with
  | nil => simp [statSum, zeroStats]
  | cons seg rest ih =>
    obtain ⟨q, hq⟩ := hall seg (List.mem_cons_self seg rest)
    have hrest : ∀ s ∈ rest, ∃ q, segDelta tok role s = .ok q := by
      intro s hs
      exact hall s (List.mem_cons_of_mem seg hs)
    obtain ⟨i1, i2, i3, i4, i5, i6⟩ := ih hrest
    obtain ⟨j1, j2, j3, j4, j5, j6⟩ := segStats_spec tok role seg q hq
    simp only [List.map_cons, statSum_cons, List.sum_cons, List.any_cons,
      segStats_eq tok role seg q hq, statAdd]
    refine ⟨?_, ?_, ?_, ?_, ?_, ?_⟩
    · rw [j1, i1]
    · by_cases hrole : role = "user"
      · rw [if_pos hrole] at j2 i2 ⊢
        rw [j2, i2]
      · rw [if_neg hrole] at j2 i2 ⊢
        rw [j2, i2]
    · by_cases hrole : role = "user"
      · rw [if_pos hrole] at j3 i3 ⊢
        rw [j3, i3]
      · rw [if_neg hrole] at j3 i3 ⊢
        rw [j3, i3]
    · rw [j4, i4]
    · rw [j5, i5]
    · omega

lemma msgRole_cases (msg : Json) : msgRole msg = "user" ∨ msgRole msg = "model" := by
  cases msg with
  | obj fields =>
    simp only [msgRole]
    cases fields.lookup "sender" with
    | none => simp
    | some sender =>
      by_cases hs : jsonEqStr sender "human" = true
      · simp [hs]
      · simp [hs]
  | null => simp [msgRole]
  | bool b => simp [msgRole]
  | num q => simp [msgRole]
  | str s => simp [msgRole]
  | arr xs => simp [msgRole]

lemma msgStats_spec (tok : String → Nat) (msg : Json)
    (p : List Chunk × TokenStats) (h : msgDelta tok msg = .ok p) :
    p.2.message_count = 1 ∧
    p.2.thinking_tokens = ((messageSegments msg).map (spec_segThinkingTokens tok)).sum ∧
    p.2.user_tokens = (if msgRole msg = "user" then
      ((messageSegments msg).map (spec_segTextTokens tok)).sum else 0) ∧
    p.2.model_tokens = (if msgRole msg = "user" then 0 else
      ((messageSegments msg).map (spec_segTextTokens tok)).sum) ∧
    p.2.has_thinking = (messageSegments msg).any spec_segIsThinking ∧
    p.2.total_tokens = p.2.user_tokens + p.2.model_tokens + p.2.thinking_tokens := by
  obtain ⟨fields, sender, segs, hmsg, hsender, hiter, hrole, hsegs, hchunks, hstats, hall⟩ :=
    msgDelta_ok tok msg p h
  obtain ⟨i1, i2, i3, i4, i5, i6⟩ := statSum_segStats tok (msgRole msg) segs hall
  rw [hstats, hsegs]
  simp only [statAdd, oneMessageStats, zeroStats]
  refine ⟨?_, ?_, ?_, ?_, ?_, ?_⟩
  · simp [i4]
  · simp [i1]
  · simp [i2]
  · simp [i3]
  · simp [i5]
  · omega

lemma statSum_msgStats (tok : String → Nat) (msgs : List Json)
    (hall : ∀ m ∈ msgs, ∃ p, msgDelta tok m = .ok p) :
    (statSum (msgs.map (msgStats tok))).message_count = msgs.length ∧
    (statSum (msgs.map (msgStats tok))).thinking_tokens = spec_thinkingTokens tok msgs ∧
    (statSum (msgs.map (msgStats tok))).user_tokens = spec_roleTokens tok "user" msgs ∧
    (statSum (msgs.map (msgStats tok))).model_tokens = spec_roleTokens tok "model" msgs ∧
    (statSum (msgs.map (msgStats tok))).has_thinking = spec_hasThinking msgs ∧
    (statSum (msgs.map (msgStats tok))).total_tokens =
      (statSum (msgs.map (msgStats tok))).user_tokens +
      (statSum (msgs.map (msgStats tok))).model_tokens +
      (statSum (msgs.map (msgStats tok))).thinking_tokens := by
  induction msgs with
  | nil =>
    simp [statSum, zeroStats, spec_thinkingTokens, spec_roleTokens, spec_hasThinking]
  | cons msg rest ih =>
    obtain ⟨p, hp⟩ := hall msg (List.mem_cons_self msg rest)
    have hrest : ∀ m ∈ rest, ∃ p, msgDelta tok m = .ok p := by
      intro m hm
      exact hall m (List.mem_cons_of_mem msg hm)
    obtain ⟨i1, i2, i3, i4, i5, i6⟩ := ih hrest
    obtain ⟨j1, j2, j3, j4, j5, j6⟩ := msgStats_spec tok msg p hp
    simp only [List.map_cons, statSum_cons, List.sum_cons, List.any_cons, List.length_cons,
      msgStats_eq tok msg p hp, statAdd, spec_thinkingTokens, spec_roleTokens,
      spec_hasThinking] at *
    refine ⟨?_, ?_, ?_, ?_, ?_, ?_⟩
    · rw [j1, i1]
      omega
    · rw [j2, i2]
    · rcases msgRole_cases msg with hrole | hrole
      · rw [if_pos hrole] at j3 ⊢
        rw [j3, i3]
      · rw [if_neg (by rw [hrole]; decide) ] at j3 ⊢
        rw [j3, i3]
    · rcases msgRole_cases msg with hrole | hrole
      · rw [if_neg (by rw [hrole]; decide)]
        rw [if_pos hrole] at j4
        rw [j4, i4]
      · rw [if_pos hrole]
        rw [if_neg (by rw [hrole]; decide)] at j4
        rw [j4, i4]
    · rw [j5, i5]
    · omega

/-! ### The traversal never raises the validation error -/

lemma processSegment_error_shape (tok : String → Nat) (role : String)
    (acc : List Chunk × TokenStats) (seg : Json) (e : PyError)
    (h : processSegment tok role acc seg = .error e) :
    e = .keyError "type" ∨ (∃ m, e = .typeError m) ∨ (∃ m, e = .attributeError m) := by
  cases seg with
  | obj fields =>
    simp only [processSegment] at h
    cases hty : fields.lookup "type" with
    | none =>
      rw [hty] at h
      simp only [Except.error.injEq] at h
      exact Or.inl h.symm
    | some ty =>
      rw [hty] at h
      by_cases h1 : jsonEqStr ty "thinking" = true
      · simp only [h1, if_true] at h
        cases hpay : dictGet fields "thinking" (.str "") with
        | str s =>
          rw [hpay] at h
          simp only [pyStrip] at h
          split at h <;> simp at h
        | null =>
          rw [hpay] at h
          simp only [pyStrip, Except.error.injEq] at h
          exact Or.inr (Or.inr ⟨_, h.symm⟩)
        | bool b =>
          rw [hpay] at h
          simp only [pyStrip, Except.error.injEq] at h
          exact Or.inr (Or.inr ⟨_, h.symm⟩)
        | num q =>
          rw [hpay] at h
          simp only [pyStrip, Except.error.injEq] at h
          exact Or.inr (Or.inr ⟨_, h.symm⟩)
        | arr xs =>
          rw [hpay] at h
          simp only [pyStrip, Except.error.injEq] at h
          exact Or.inr (Or.inr ⟨_, h.symm⟩)
        | obj fs =>
          rw [hpay] at h
          simp only [pyStrip, Except.error.injEq] at h
          exact Or.inr (Or.inr ⟨_, h.symm⟩)
      · simp only [Bool.not_eq_true] at h1
        simp only [h1, Bool.false_eq_true, if_false] at h
        by_cases h2 : jsonEqStr ty "text" = true
        · simp only [h2, if_true] at h
          cases hpay : dictGet fields "text" (.str "") with
          | str s =>
            rw [hpay] at h
            simp only [pyStrip] at h
            split at h <;> simp at h
          | null =>
            rw [hpay] at h
            simp only [pyStrip, Except.error.injEq] at h
            exact Or.inr (Or.inr ⟨_, h.symm⟩)
          | bool b =>
            rw [hpay] at h
            simp only [pyStrip, Except.error.injEq] at h
            exact Or.inr (Or.inr ⟨_, h.symm⟩)
          | num q =>
            rw [hpay] at h
            simp only [pyStrip, Except.error.injEq] at h
            exact Or.inr (Or.inr ⟨_, h.symm⟩)
          | arr xs =>
            rw [hpay] at h
            simp only [pyStrip, Except.error.injEq] at h
            exact Or.inr (Or.inr ⟨_, h.symm⟩)
          | obj fs =>
            rw [hpay] at h
            simp only [pyStrip, Except.error.injEq] at h
            exact Or.inr (Or.inr ⟨_, h.symm⟩)
        · simp only [Bool.not_eq_true] at h2
          simp only [h2, Bool.false_eq_true, if_false] at h
          simp at h
  | null =>
    simp only [processSegment, Except.error.injEq] at h
    exact Or.inr (Or.inl ⟨_, h.symm⟩)
  | bool b =>
    simp only [processSegment, Except.error.injEq] at h
    exact Or.inr (Or.inl ⟨_, h.symm⟩)
  | num q =>
    simp only [processSegment, Except.error.injEq] at h
    exact Or.inr (Or.inl ⟨_, h.symm⟩)
  | str s =>
    simp only [processSegment, Except.error.injEq] at h
    exact Or.inr (Or.inl ⟨_, h.symm⟩)
  | arr xs =>
    simp only [processSegment, Except.error.injEq] at h
    exact Or.inr (Or.inl ⟨_, h.symm⟩)

lemma foldSegments_error_shape (tok : String → Nat) (role : String)
    (segs : List Json) (acc : List Chunk × TokenStats) (e : PyError)
    (h : foldSegments tok role segs acc = .error e) :
    e = .keyError "type" ∨ (∃ m, e = .typeError m) ∨ (∃ m, e = .attributeError m) := by
  induction segs generalizing acc with
  | nil => simp [foldSegments] at h
  | cons seg rest ih =>
    simp only [foldSegments] at h
    cases hd : processSegment tok role acc seg with
    | error e2 =>
      rw [hd] at h
      simp only [Except.error.injEq] at h
      subst h
      exact processSegment_error_shape tok role acc seg _ hd
    | ok acc2 =>
      rw [hd] at h
      exact ih acc2 h

lemma processMessage_error_shape (tok : String → Nat)
    (acc : List Chunk × TokenStats) (msg : Json) (e : PyError)
    (h : processMessage tok acc msg = .error e) :
    e = .keyError "sender" ∨ e = .keyError "type" ∨
    (∃ m, e = .typeError m) ∨ (∃ m, e = .attributeError m) := by
  cases msg with
  | obj fields =>
    simp only [processMessage] at h
    cases hsender : fields.lookup "sender" with
    | none =>
      rw [hsender] at h
      simp only [Except.error.injEq] at h
      exact Or.inl h.symm
    | some sender =>
      rw [hsender] at h
      simp only [] at h
      cases hiter : pyIter (dictGet fields "content" (.arr [])) with
      | error e2 =>
        rw [hiter] at h
        simp only [Except.error.injEq] at h
        subst h
        cases hv : dictGet fields "content" (.arr []) <;> rw [hv] at hiter <;>
          simp only [pyIter, Except.error.injEq] at hiter
        · exact Or.inr (Or.inr (Or.inl ⟨_, hiter.symm⟩))
        · exact Or.inr (Or.inr (Or.inl ⟨_, hiter.symm⟩))
        · exact Or.inr (Or.inr (Or.inl ⟨_, hiter.symm⟩))
        · exact absurd hiter (by simp)
        · exact absurd hiter (by simp)
        · exact absurd hiter (by simp)
      | ok segs =>
        rw [hiter] at h
        simp only [] at h
        rcases foldSegments_error_shape tok _ segs _ e h with h2 | h2 | h2
        · exact Or.inr (Or.inl h2)
        · exact Or.inr (Or.inr (Or.inl h2))
        · exact Or.inr (Or.inr (Or.inr h2))
  | null =>
    simp only [processMessage, Except.error.injEq] at h
    exact Or.inr (Or.inr (Or.inl ⟨_, h.symm⟩))
  | bool b =>
    simp only [processMessage, Except.error.injEq] at h
    exact Or.inr (Or.inr (Or.inl ⟨_, h.symm⟩))
  | num q =>
    simp only [processMessage, Except.error.injEq] at h
    exact Or.inr (Or.inr (Or.inl ⟨_, h.symm⟩))
  | str s =>
    simp only [processMessage, Except.error.injEq] at h
    exact Or.inr (Or.inr (Or.inl ⟨_, h.symm⟩))
  | arr xs =>
    simp only [processMessage, Except.error.injEq] at h
    exact Or.inr (Or.inr (Or.inl ⟨_, h.symm⟩))

lemma foldMessages_error_shape (tok : String → Nat)
    (msgs : List Json) (acc : List Chunk × TokenStats) (e : PyError)
    (h : foldMessages tok msgs acc = .error e) :
    e = .keyError "sender" ∨ e = .keyError "type" ∨
    (∃ m, e = .typeError m) ∨ (∃ m, e = .attributeError m) := by
  induction msgs generalizing acc with
  | nil => simp [foldMessages] at h
  | cons msg rest ih =>
    simp only [foldMessages] at h
    cases hd : processMessage tok acc msg with
    | error e2 =>
      rw [hd] at h
      simp only [Except.error.injEq] at h
      subst h
      exact processMessage_error_shape tok acc msg _ hd
    | ok acc2 =>
      rw [hd] at h
      exact ih acc2 h

/-! ### Facts about the filename derivation -/

lemma replaceAll_nil_eq (pat rep : List Char) : replaceAll pat rep [] = [] := by
  simp [replaceAll]

lemma replaceAll_cons_eq (pat rep : List Char) (c : Char) (cs : List Char) :
    replaceAll pat rep (c :: cs) =
      if pat ≠ [] ∧ pat.isPrefixOf (c :: cs) then
        rep ++ replaceAll pat rep ((c :: cs).drop pat.length)
      else
        c :: replaceAll pat rep cs := by
  rw [replaceAll]

/-- Replacement is the identity on a list in which the pattern never
occurs. -/
lemma replaceAll_no_occ (pat rep l : List Char)
    (h : ∀ t ∈ l.tails, pat.isPrefixOf t = false) :
    replaceAll pat rep l = l := by
  induction l with
  | nil => exact replaceAll_nil_eq pat rep
  | cons c cs ih =>
    rw [replaceAll_cons_eq]
    have hpre : pat.isPrefixOf (c :: cs) = false :=
      h (c :: cs) (by rw [List.mem_tails])
    rw [if_neg (by simp [hpre])]
    have : ∀ t ∈ cs.tails, pat.isPrefixOf t = false := by
      intro t ht
      refine h t ?_
      rw [List.mem_tails] at ht ⊢
      exact ht.trans (List.suffix_cons c cs)
    rw [ih this]

/-- When the only occurrence of the (non-empty) pattern is as the final
suffix, replacement rewrites exactly that suffix. -/
lemma replaceAll_suffix_only (pat rep l : List Char) (hpat : pat ≠ [])
    (hgood : ∀ t ∈ l.tails, pat.isPrefixOf t = true → t = pat)
    (hsuf : pat <:+ l) :
    replaceAll pat rep l = l.take (l.length - pat.length) ++ rep := by
  induction l with
  | nil =>
    exact absurd (List.eq_nil_of_suffix_nil hsuf) hpat
  | cons c cs ih =>
    rw [replaceAll_cons_eq]
    by_cases hpre : pat.isPrefixOf (c :: cs) = true
    · have heq : c :: cs = pat := (hgood (c :: cs) (by rw [List.mem_tails]) hpre).symm ▸ rfl
      have heq2 : (c :: cs) = pat := hgood (c :: cs) (by rw [List.mem_tails]) hpre
      rw [if_pos ⟨hpat, hpre⟩]
      rw [heq2, List.drop_length, replaceAll_nil_eq]
      simp
    · rw [if_neg (by simp [hpre])]
      have hne : pat ≠ c :: cs := by
        intro hcontra
        apply hpre
        rw [hcontra]
        simp [List.isPrefixOf_iff_prefix]
      have hsuf2 : pat <:+ cs := by
        rcases hsuf with ⟨pre, hpre2⟩
        cases pre with
        | nil => exact absurd (by simpa using hpre2) hne
        | cons p ps =>
          simp only [List.cons_append, List.cons.injEq] at hpre2
          exact ⟨ps, hpre2.2⟩
      have hgood2 : ∀ t ∈ cs.tails, pat.isPrefixOf t = true → t = pat := by
        intro t ht
        refine hgood t ?_
        rw [List.mem_tails] at ht ⊢
        exact ht.trans (List.suffix_cons c cs)
      rw [ih hgood2 hsuf2]
      have hlen : pat.length ≤ cs.length := hsuf2.length_le
      have : (c :: cs).length - pat.length = (cs.length - pat.length) + 1 := by
        simp only [List.length_cons]
        omega
      rw [this]
      simp

lemma segChunksLen_le (tok : String → Nat) (role : String) (segs : List Json)
    (hall : ∀ s ∈ segs, ∃ q, segDelta tok role s = .ok q) :
    ((segs.map (segChunks tok role)).flatten).length ≤ segs.countP countedSegment := by
  induction segs with
  | nil => simp
  | cons seg rest ih =>
    obtain ⟨q, hq⟩ := hall seg (List.mem_cons_self seg rest)
    have hrest : ∀ s ∈ rest, ∃ q, segDelta tok role s = .ok q := by
      intro s hs
      exact hall s (List.mem_cons_of_mem seg hs)
    have hlen := segChunks_len tok role seg q hq
    rw [← segChunks_eq tok role seg q hq] at hlen
    have hihle := ih hrest
    simp only [List.map_cons, List.flatten_cons, List.length_append, List.countP_cons]
    by_cases hc : countedSegment seg = true
    · rw [if_pos hc]
      rw [if_pos hc] at hlen
      omega
    · rw [if_neg hc]
      rw [if_neg hc] at hlen
      omega

lemma msgChunksLen_le (tok : String → Nat) (msgs : List Json)
    (hall : ∀ m ∈ msgs, ∃ p, msgDelta tok m = .ok p) :
    ((msgs.map (msgChunks tok)).flatten).length ≤
      (msgs.map fun m => (messageSegments m).countP countedSegment).sum := by
  induction msgs with
  | nil => simp
  | cons msg rest ih =>
    obtain ⟨p, hp⟩ := hall msg (List.mem_cons_self msg rest)
    have hrest : ∀ m ∈ rest, ∃ p, msgDelta tok m = .ok p := by
      intro m hm
      exact hall m (List.mem_cons_of_mem msg hm)
    obtain ⟨fields, sender, segs, hmsg, hsender, hiter, hrole, hsegs, hchunks, hstats, hseg⟩ :=
      msgDelta_ok tok msg p hp
    have h1 : (msgChunks tok msg).length ≤ (messageSegments msg).countP countedSegment := by
      rw [msgChunks_eq tok msg p hp, hchunks, hsegs]
      exact segChunksLen_le tok (msgRole msg) segs hseg
    have h2 := ih hrest
    simp only [List.map_cons, List.flatten_cons, List.length_append, List.sum_cons]
    omega

lemma convert_error_not_valueError (tok : String → Nat)
    (fields : List (String × Json)) (e : PyError)
    (hkey : (fields.lookup "chat_messages").isSome = true)
    (h : convert_claude_to_gemini tok (.obj fields) = .error e) :
    ∀ m, e ≠ .valueError m := by
  intro m hcontra
  subst hcontra
  simp only [convert_claude_to_gemini, hkey, if_true] at h
  cases hiter : pyIter (dictGet fields "chat_messages" (.arr [])) with
  | error e2 =>
    rw [hiter] at h
    simp only [Except.error.injEq] at h
    cases hv : dictGet fields "chat_messages" (.arr []) <;> rw [hv] at hiter <;>
      simp only [pyIter, Except.error.injEq] at hiter
    · rw [← hiter] at h
      exact absurd h (by simp)
    · rw [← hiter] at h
      exact absurd h (by simp)
    · rw [← hiter] at h
      exact absurd h (by simp)
    · exact absurd hiter (by simp)
    · exact absurd hiter (by simp)
    · exact absurd hiter (by simp)
  | ok msgs =>
    rw [hiter] at h
    simp only [] at h
    cases hfold : foldMessages tok msgs ([], zeroStats) with
    | error e2 =>
      rw [hfold] at h
      simp only [Except.error.injEq] at h
      subst h
      rcases foldMessages_error_shape tok msgs ([], zeroStats) _ hfold with h2 | h2 | ⟨m2, h2⟩ | ⟨m2, h2⟩ <;>
        simp at h2
    | ok out =>
      rw [hfold] at h
      obtain ⟨oc, os⟩ := out
      simp at h

/-! ### Fixtures used by witness theorems -/

/-- A deterministic stand-in tokenizer: a text counts one token per
character. -/
def wTok : String → Nat := fun s => s.data.length

/-- A human message with one text segment (padded with whitespace) and one
segment of an unknown type. -/
def wMsgHuman : Json :=
  .obj [("sender", .str "human"), ("content", .arr [
    .obj [("type", .str "text"), ("text", .str " Hi ")],
    .obj [("type", .str "image"), ("url", .str "x")]])]

/-- An assistant message with one thinking segment and one text segment. -/
def wMsgAssistant : Json :=
  .obj [("sender", .str "assistant"), ("content", .arr [
    .obj [("type", .str "thinking"), ("thinking", .str " deep ")],
    .obj [("type", .str "text"), ("text", .str "Yo")]])]

/-- A small but representative source document. -/
def wSrc : Json := .obj [("chat_messages", .arr [wMsgHuman, wMsgAssistant])]

/-- The chunks the conversion of `wSrc` produces. -/
def wChunks : List Chunk :=
  [{ text := "Hi", role := "user", tokenCount := 2, isThought := false, finishReason := none },
   { text := "deep", role := "model", tokenCount := 4, isThought := true, finishReason := none },
   { text := "Yo", role := "model", tokenCount := 2, isThought := false,
     finishReason := some "STOP" }]

/-- The converted document the conversion of `wSrc` produces. -/
def wDoc : ConvertedDocument :=
  { runSettings := runSettingsValue, systemInstruction := .obj [],
    chunks := wChunks, pendingInputs := pendingInputsValue }

/-- The statistics the conversion of `wSrc` produces. -/
def wStats : TokenStats :=
  { total_tokens := 8, user_tokens := 2, model_tokens := 2, thinking_tokens := 4,
    message_count := 2, has_thinking := true }

/-! ### The claims -/

/-- C1: for every message processed successfully, the chunks it appends all
carry the role resolved from the message's `sender` (`"human"` maps to
`"user"`, anything else to `"model"`), and `finishReason = "STOP"` is
present on a chunk exactly when the chunk has role `"model"` and is not a
thinking-derived chunk; thinking-derived chunks (`isThought = true`) never
carry a `finishReason`. -/
theorem claim_C1 (tok : String → Nat) (cs : List Chunk) (st : TokenStats)
    (msg : Json) (out : List Chunk × TokenStats)
    (h : processMessage tok (cs, st) msg = .ok out) :
    ∃ fields sender newChunks, msg = .obj fields ∧
      fields.lookup "sender" = some sender ∧
      out.1 = cs ++ newChunks ∧
      ∀ c ∈ newChunks,
        c.role = (if jsonEqStr sender "human" then "user" else "model") ∧
        (c.finishReason = some "STOP" ↔ (c.role = "model" ∧ c.isThought = false)) ∧
        (c.isThought = true → c.finishReason = none) := by
  rw [processMessage_shift] at h
  cases hd : msgDelta tok msg with
  | error e => rw [hd] at h; exact absurd h (by simp [Except.map])
  | ok p =>
    rw [hd] at h
    simp only [Except.map, Except.ok.injEq] at h
    obtain ⟨fields, sender, segs, hmsg, hsender, hiter, hrole, hsegs, hchunks, hstats, hall⟩ :=
      msgDelta_ok tok msg p hd
    refine ⟨fields, sender, p.1, hmsg, hsender, ?_, ?_⟩
    · rw [← h]
    · intro c hc
      rw [hchunks] at hc
      rw [List.mem_flatten] at hc
      obtain ⟨l, hl, hcl⟩ := hc
      rw [List.mem_map] at hl
      obtain ⟨seg, hseg, hlseg⟩ := hl
      obtain ⟨q, hq⟩ := hall seg hseg
      rw [← hlseg, segChunks_eq tok (msgRole msg) seg q hq] at hcl
      obtain ⟨hr, hf, ht⟩ := segChunks_props tok (msgRole msg) seg q hq c hcl
      rw [hrole] at hr
      exact ⟨hr, hf, ht⟩

/-- The accumulator the assistant fixture message produces from an empty
start. -/
def wOutAssistant : List Chunk × TokenStats :=
  ([{ text := "deep", role := "model", tokenCount := 4, isThought := true,
      finishReason := none },
    { text := "Yo", role := "model", tokenCount := 2, isThought := false,
      finishReason := some "STOP" }],
   { total_tokens := 6, user_tokens := 0, model_tokens := 2, thinking_tokens := 4,
     message_count := 1, has_thinking := true })

/-- C1 witness: the assistant fixture message resolves to role `"model"`;
its text chunk carries `finishReason = "STOP"` and its thinking chunk does
not. -/
theorem claim_C1_witness :
    ∃ fields sender newChunks, wMsgAssistant = .obj fields ∧
      fields.lookup "sender" = some sender ∧
      wOutAssistant.1 = [] ++ newChunks ∧
      ∀ c ∈ newChunks,
        c.role = (if jsonEqStr sender "human" then "user" else "model") ∧
        (c.finishReason = some "STOP" ↔ (c.role = "model" ∧ c.isThought = false)) ∧
        (c.isThought = true → c.finishReason = none) :=
  claim_C1 wTok [] zeroStats wMsgAssistant wOutAssistant (by rfl)

/-- C2: on every successful conversion the chunk sequence is exactly the
concatenation, over messages in input order and segments within a message
in input order, of the chunks each segment emits — so chunk order is
segment encounter order — and its length is at most the number of counted
(non-empty `text`/`thinking`) segments; moreover a segment of any other
type is skipped, leaving chunks and statistics untouched. -/
theorem claim_C2 :
    (∀ (tok : String → Nat) (src : Json) (doc : ConvertedDocument) (stats : TokenStats),
      convert_claude_to_gemini tok src = .ok (doc, stats) →
      ∃ fields msgs, src = .obj fields ∧
        pyIter (dictGet fields "chat_messages" (.arr [])) = .ok msgs ∧
        doc.chunks = (msgs.map fun m =>
          ((messageSegments m).map (segChunks tok (msgRole m))).flatten).flatten ∧
        doc.chunks.length ≤
          (msgs.map fun m => (messageSegments m).countP countedSegment).sum) ∧
    (∀ (tok : String → Nat) (role : String) (acc : List Chunk × TokenStats)
        (fields : List (String × Json)) (ty : Json),
      fields.lookup "type" = some ty → jsonEqStr ty "thinking" = false →
      jsonEqStr ty "text" = false →
      processSegment tok role acc (.obj fields) = .ok acc) := by
  constructor
  · intro tok src doc stats h
    obtain ⟨fields, msgs, hsrc, hkey, hiter, hrs, hsi, hpi, hchunks, hstats, hall⟩ :=
      convert_ok tok src doc stats h
    refine ⟨fields, msgs, hsrc, hiter, ?_, ?_⟩
    · rw [hchunks]
      congr 1
      refine List.map_congr_left ?_
      intro m hm
      obtain ⟨p, hp⟩ := hall m hm
      obtain ⟨f2, s2, segs2, hmsg2, hsender2, hiter2, hrole2, hsegs2, hchunks2, hstats2, hall2⟩ :=
        msgDelta_ok tok m p hp
      rw [msgChunks_eq tok m p hp, hchunks2, hsegs2]
    · rw [hchunks]
      exact msgChunksLen_le tok msgs hall
  · intro tok role acc fields ty hty h1 h2
    simp [processSegment, hty, h1, h2]

/-- C2 witness: the fixture conversion emits its three chunks in encounter
order, within the bound of three counted segments, and an `image` segment
is skipped without effect. -/
theorem claim_C2_witness :
    (∃ fields msgs, wSrc = .obj fields ∧
      pyIter (dictGet fields "chat_messages" (.arr [])) = .ok msgs ∧
      wDoc.chunks = (msgs.map fun m =>
        ((messageSegments m).map (segChunks wTok (msgRole m))).flatten).flatten ∧
      wDoc.chunks.length ≤
        (msgs.map fun m => (messageSegments m).countP countedSegment).sum) ∧
    processSegment wTok "user" ([], zeroStats)
      (.obj [("type", Json.str "image"), ("url", Json.str "x")]) = .ok ([], zeroStats) :=
  ⟨claim_C2.1 wTok wSrc wDoc wStats (by rfl),
   claim_C2.2 wTok "user" ([], zeroStats) [("type", Json.str "image"), ("url", Json.str "x")]
     (Json.str "image") (by rfl) (by rfl) (by rfl)⟩

/-- C3: on every successful conversion,
`total_tokens = user_tokens + model_tokens + thinking_tokens`. -/
theorem claim_C3 (tok : String → Nat) (src : Json)
    (doc : ConvertedDocument) (stats : TokenStats)
    (h : convert_claude_to_gemini tok src = .ok (doc, stats)) :
    stats.total_tokens = stats.user_tokens + stats.model_tokens + stats.thinking_tokens := by
  obtain ⟨fields, msgs, hsrc, hkey, hiter, hrs, hsi, hpi, hchunks, hstats, hall⟩ :=
    convert_ok tok src doc stats h
  obtain ⟨i1, i2, i3, i4, i5, i6⟩ := statSum_msgStats tok msgs hall
  rw [hstats]
  exact i6

/-- C3 witness: the fixture conversion has `8 = 2 + 2 + 4`. -/
theorem claim_C3_witness :
    wStats.total_tokens = wStats.user_tokens + wStats.model_tokens + wStats.thinking_tokens :=
  claim_C3 wTok wSrc wDoc wStats (by rfl)

/-- C4: on every successful conversion the statistics equal their reference
definitions — `message_count` counts every message; `thinking_tokens` sums
only non-empty `thinking` segments; `user_tokens`/`model_tokens` sum only
non-empty `text` segments bucketed by the message's resolved role; and
`has_thinking` holds iff some `thinking` segment had non-empty trimmed
text. -/
theorem claim_C4 (tok : String → Nat) (src : Json)
    (doc : ConvertedDocument) (stats : TokenStats)
    (h : convert_claude_to_gemini tok src = .ok (doc, stats)) :
    ∃ fields msgs, src = .obj fields ∧
      pyIter (dictGet fields "chat_messages" (.arr [])) = .ok msgs ∧
      stats.message_count = msgs.length ∧
      stats.thinking_tokens = spec_thinkingTokens tok msgs ∧
      stats.user_tokens = spec_roleTokens tok "user" msgs ∧
      stats.model_tokens = spec_roleTokens tok "model" msgs ∧
      stats.has_thinking = spec_hasThinking msgs := by
  obtain ⟨fields, msgs, hsrc, hkey, hiter, hrs, hsi, hpi, hchunks, hstats, hall⟩ :=
    convert_ok tok src doc stats h
  obtain ⟨i1, i2, i3, i4, i5, i6⟩ := statSum_msgStats tok msgs hall
  exact ⟨fields, msgs, hsrc, hiter, by rw [hstats]; exact i1, by rw [hstats]; exact i2,
    by rw [hstats]; exact i3, by rw [hstats]; exact i4, by rw [hstats]; exact i5⟩

/-- C4 witness: the fixture statistics match the reference definitions on
the fixture's two messages. -/
theorem claim_C4_witness :
    ∃ fields msgs, wSrc = .obj fields ∧
      pyIter (dictGet fields "chat_messages" (.arr [])) = .ok msgs ∧
      wStats.message_count = msgs.length ∧
      wStats.thinking_tokens = spec_thinkingTokens wTok msgs ∧
      wStats.user_tokens = spec_roleTokens wTok "user" msgs ∧
      wStats.model_tokens = spec_roleTokens wTok "model" msgs ∧
      wStats.has_thinking = spec_hasThinking msgs :=
  claim_C4 wTok wSrc wDoc wStats (by rfl)

/-- C5: the payload of a `text`/`thinking` segment is trimmed before use —
a non-empty trimmed payload yields exactly one chunk whose `text` is the
trimmed string and whose `tokenCount` is computed from the trimmed string —
and an empty-after-trim payload (which includes a whitespace-only or absent
payload, since an absent payload defaults to `""`) yields no chunk and
leaves every statistics field unchanged. -/
theorem claim_C5 :
    (∀ (tok : String → Nat) (role : String) (fields : List (String × Json))
        (cs : List Chunk) (st : TokenStats) (s : String),
      fields.lookup "type" = some (.str "thinking") →
      dictGet fields "thinking" (.str "") = .str s →
      strip s = "" →
      processSegment tok role (cs, st) (.obj fields) = .ok (cs, st)) ∧
    (∀ (tok : String → Nat) (role : String) (fields : List (String × Json))
        (cs : List Chunk) (st : TokenStats) (s : String),
      fields.lookup "type" = some (.str "thinking") →
      dictGet fields "thinking" (.str "") = .str s →
      strip s ≠ "" →
      processSegment tok role (cs, st) (.obj fields) =
        .ok (cs ++ [{ text := strip s, role := role,
                      tokenCount := count_tokens tok (strip s),
                      isThought := true, finishReason := none }],
             { st with
               has_thinking := true,
               total_tokens := st.total_tokens + count_tokens tok (strip s),
               thinking_tokens := st.thinking_tokens + count_tokens tok (strip s) })) ∧
    (∀ (tok : String → Nat) (role : String) (fields : List (String × Json))
        (cs : List Chunk) (st : TokenStats) (s : String),
      fields.lookup "type" = some (.str "text") →
      dictGet fields "text" (.str "") = .str s →
      strip s = "" →
      processSegment tok role (cs, st) (.obj fields) = .ok (cs, st)) ∧
    (∀ (tok : String → Nat) (role : String) (fields : List (String × Json))
        (cs : List Chunk) (st : TokenStats) (s : String),
      fields.lookup "type" = some (.str "text") →
      dictGet fields "text" (.str "") = .str s →
      strip s ≠ "" →
      processSegment tok role (cs, st) (.obj fields) =
        .ok (cs ++ [{ text := strip s, role := role,
                      tokenCount := count_tokens tok (strip s),
                      isThought := false,
                      finishReason := if role = "model" then some "STOP" else none }],
             { st with
               total_tokens := st.total_tokens + count_tokens tok (strip s),
               user_tokens := if role = "user" then st.user_tokens + count_tokens tok (strip s)
                              else st.user_tokens,
               model_tokens := if role = "user" then st.model_tokens
                               else st.model_tokens + count_tokens tok (strip s) })) := by
  refine ⟨?_, ?_, ?_, ?_⟩
  · intro tok role fields cs st s hty hpay hempty
    simp [processSegment, hty, hpay, pyStrip, jsonEqStr, hempty]
  · intro tok role fields cs st s hty hpay hne
    simp [processSegment, hty, hpay, pyStrip, jsonEqStr, hne]
  · intro tok role fields cs st s hty hpay hempty
    simp [processSegment, hty, hpay, pyStrip, jsonEqStr, hempty]
  · intro tok role fields cs st s hty hpay hne
    simp [processSegment, hty, hpay, pyStrip, jsonEqStr, hne]

/-- C5 witness: a whitespace-only thinking payload contributes nothing,
and the padded text payload `" Hi "` is used as `"Hi"`. -/
theorem claim_C5_witness :
    processSegment wTok "user" ([], zeroStats)
      (.obj [("type", Json.str "thinking"), ("thinking", Json.str "   ")]) =
      .ok ([], zeroStats) ∧
    processSegment wTok "user" ([], zeroStats)
      (.obj [("type", Json.str "text"), ("text", Json.str " Hi ")]) =
      .ok ([{ text := strip " Hi ", role := "user",
              tokenCount := count_tokens wTok (strip " Hi "),
              isThought := false, finishReason := if "user" = "model" then some "STOP" else none }],
           { zeroStats with
             total_tokens := zeroStats.total_tokens + count_tokens wTok (strip " Hi "),
             user_tokens := if "user" = "user" then
               zeroStats.user_tokens + count_tokens wTok (strip " Hi ") else zeroStats.user_tokens,
             model_tokens := if "user" = "user" then zeroStats.model_tokens
                             else zeroStats.model_tokens + count_tokens wTok (strip " Hi ") }) :=
  ⟨claim_C5.1 wTok "user" [("type", Json.str "thinking"), ("thinking", Json.str "   ")]
     [] zeroStats "   " (by rfl) (by rfl) (by rfl),
   claim_C5.2.2.2 wTok "user" [("type", Json.str "text"), ("text", Json.str " Hi ")]
     [] zeroStats " Hi " (by rfl) (by rfl) (by decide)⟩

/-- C6: an input that is not a mapping, or lacks `chat_messages`, fails
with the validation `ValueError` (the spec's `InvalidInputError`) and no
output is produced; conversely, on a mapping containing `chat_messages`
the conversion never fails with a `ValueError`. -/
theorem claim_C6 :
    (∀ (tok : String → Nat) (src : Json),
      (∀ fields, src ≠ .obj fields) →
      convert_claude_to_gemini tok src =
        .error (.valueError "Invalid input: Expected a JSON object with chat_messages field")) ∧
    (∀ (tok : String → Nat) (fields : List (String × Json)),
      fields.lookup "chat_messages" = none →
      convert_claude_to_gemini tok (.obj fields) =
        .error (.valueError "Invalid input: Expected a JSON object with chat_messages field")) ∧
    (∀ (tok : String → Nat) (fields : List (String × Json)) (v : Json),
      fields.lookup "chat_messages" = some v →
      ∀ m, convert_claude_to_gemini tok (.obj fields) ≠ .error (.valueError m)) := by
  refine ⟨?_, ?_, ?_⟩
  · intro tok src hsrc
    cases src with
    | obj fields => exact absurd rfl (hsrc fields)
    | null => rfl
    | bool b => rfl
    | num q => rfl
    | str s => rfl
    | arr xs => rfl
  · intro tok fields hkey
    simp [convert_claude_to_gemini, hkey]
  · intro tok fields v hkey m hcontra
    have hkey2 : (fields.lookup "chat_messages").isSome = true := by
      rw [hkey]; rfl
    exact convert_error_not_valueError tok fields _ hkey2 hcontra m rfl

/-- C6 witness: a bare list input and a mapping without `chat_messages`
both fail with the validation error, while the fixture document (which has
the key) does not produce a `ValueError`. -/
theorem claim_C6_witness :
    convert_claude_to_gemini wTok (.arr []) =
      .error (.valueError "Invalid input: Expected a JSON object with chat_messages field") ∧
    convert_claude_to_gemini wTok (.obj [("name", Json.str "x")]) =
      .error (.valueError "Invalid input: Expected a JSON object with chat_messages field") ∧
    ∀ m, convert_claude_to_gemini wTok wSrc ≠ .error (.valueError m) :=
  ⟨claim_C6.1 wTok (.arr []) (by intro fields hcontra; cases hcontra),
   claim_C6.2.1 wTok [("name", Json.str "x")] (by rfl),
   claim_C6.2.2 wTok [("chat_messages", Json.arr [wMsgHuman, wMsgAssistant])]
     (Json.arr [wMsgHuman, wMsgAssistant]) (by rfl)⟩

/-- C7: a message missing `sender` or a segment missing `type` raises the
strict-lookup `KeyError` (the spec's `MalformedInputError`), while a
missing `content` defaults to an empty sequence and a missing `text` or
`thinking` payload defaults to the empty string — none of these raise. -/
theorem claim_C7 :
    (∀ (tok : String → Nat) (acc : List Chunk × TokenStats)
        (fields : List (String × Json)),
      fields.lookup "sender" = none →
      processMessage tok acc (.obj fields) = .error (.keyError "sender")) ∧
    (∀ (tok : String → Nat) (role : String) (acc : List Chunk × TokenStats)
        (fields : List (String × Json)),
      fields.lookup "type" = none →
      processSegment tok role acc (.obj fields) = .error (.keyError "type")) ∧
    (∀ (tok : String → Nat) (cs : List Chunk) (st : TokenStats)
        (fields : List (String × Json)) (sender : Json),
      fields.lookup "sender" = some sender →
      fields.lookup "content" = none →
      processMessage tok (cs, st) (.obj fields) =
        .ok (cs, { st with message_count := st.message_count + 1 })) ∧
    (∀ (tok : String → Nat) (role : String) (acc : List Chunk × TokenStats)
        (fields : List (String × Json)) (ty : Json),
      fields.lookup "type" = some ty → jsonEqStr ty "thinking" = true →
      fields.lookup "thinking" = none →
      processSegment tok role acc (.obj fields) = .ok acc) ∧
    (∀ (tok : String → Nat) (role : String) (acc : List Chunk × TokenStats)
        (fields : List (String × Json)) (ty : Json),
      fields.lookup "type" = some ty → jsonEqStr ty "text" = true →
      fields.lookup "text" = none →
      processSegment tok role acc (.obj fields) = .ok acc) := by
  refine ⟨?_, ?_, ?_, ?_, ?_⟩
  · intro tok acc fields hsender
    simp [processMessage, hsender]
  · intro tok role acc fields hty
    simp [processSegment, hty]
  · intro tok cs st fields sender hsender hcontent
    simp [processMessage, hsender, dictGet, hcontent, pyIter, foldSegments]
  · intro tok role acc fields ty hty h1 hpay
    simp [processSegment, hty, h1, dictGet, hpay, pyStrip, strip, stripChars]
  · intro tok role acc fields ty hty h1 hpay
    by_cases h0 : jsonEqStr ty "thinking" = true
    · have : ty = .str "thinking" := by
        cases ty <;> simp [jsonEqStr] at h0 ⊢
        exact h0
      have : ty = .str "text" := by
        cases ty <;> simp [jsonEqStr] at h1 ⊢
        exact h1
      simp_all
    · simp only [Bool.not_eq_true] at h0
      simp [processSegment, hty, h0, h1, dictGet, hpay, pyStrip, strip, stripChars]

/-- C7 witness: concrete malformed and defaulted shapes behave as stated. -/
theorem claim_C7_witness :
    processMessage wTok ([], zeroStats) (.obj [("content", Json.arr [])]) =
      .error (.keyError "sender") ∧
    processSegment wTok "user" ([], zeroStats) (.obj [("text", Json.str "x")]) =
      .error (.keyError "type") ∧
    processMessage wTok ([], zeroStats) (.obj [("sender", Json.str "human")]) =
      .ok ([], { zeroStats with message_count := zeroStats.message_count + 1 }) ∧
    processSegment wTok "user" ([], zeroStats) (.obj [("type", Json.str "thinking")]) =
      .ok ([], zeroStats) ∧
    processSegment wTok "user" ([], zeroStats) (.obj [("type", Json.str "text")]) =
      .ok ([], zeroStats) :=
  ⟨claim_C7.1 wTok ([], zeroStats) [("content", Json.arr [])] (by rfl),
   claim_C7.2.1 wTok "user" ([], zeroStats) [("text", Json.str "x")] (by rfl),
   claim_C7.2.2.1 wTok [] zeroStats [("sender", Json.str "human")] (Json.str "human")
     (by rfl) (by rfl),
   claim_C7.2.2.2.1 wTok "user" ([], zeroStats) [("type", Json.str "thinking")]
     (Json.str "thinking") (by rfl) (by rfl) (by rfl),
   claim_C7.2.2.2.2 wTok "user" ([], zeroStats) [("type", Json.str "text")]
     (Json.str "text") (by rfl) (by rfl) (by rfl)⟩

/-- C8: every successful conversion carries exactly the fixed envelope:
the literal `runSettings` of §6, an empty `systemInstruction`, and
`pendingInputs = [{text: "", role: "user"}]`, independent of the input. -/
theorem claim_C8 (tok : String → Nat) (src : Json)
    (doc : ConvertedDocument) (stats : TokenStats)
    (h : convert_claude_to_gemini tok src = .ok (doc, stats)) :
    doc.runSettings = Json.obj [
      ("temperature", Json.num 1),
      ("model", Json.str "models/gemini-2.5-pro-preview-03-25"),
      ("topP", Json.num (0.95 : Rat)),
      ("topK", Json.num 64),
      ("maxOutputTokens", Json.num 65536),
      ("safetySettings", Json.arr [
        Json.obj [("category", Json.str "HARM_CATEGORY_HARASSMENT"), ("threshold", Json.str "OFF")],
        Json.obj [("category", Json.str "HARM_CATEGORY_HATE_SPEECH"), ("threshold", Json.str "OFF")],
        Json.obj [("category", Json.str "HARM_CATEGORY_SEXUALLY_EXPLICIT"), ("threshold", Json.str "OFF")],
        Json.obj [("category", Json.str "HARM_CATEGORY_DANGEROUS_CONTENT"), ("threshold", Json.str "OFF")]]),
      ("responseMimeType", Json.str "text/plain"),
      ("enableCodeExecution", Json.bool false),
      ("enableEnhancedCivicAnswers", Json.bool true),
      ("enableSearchAsATool", Json.bool false),
      ("enableBrowseAsATool", Json.bool false),
      ("enableAutoFunctionResponse", Json.bool false)] ∧
    doc.systemInstruction = Json.obj [] ∧
    doc.pendingInputs =
      Json.arr [Json.obj [("text", Json.str ""), ("role", Json.str "user")]] := by
  obtain ⟨fields, msgs, hsrc, hkey, hiter, hrs, hsi, hpi, hchunks, hstats, hall⟩ :=
    convert_ok tok src doc stats h
  refine ⟨?_, hsi, ?_⟩
  · rw [hrs]
    rfl
  · rw [hpi]
    rfl

/-- C8 witness: the fixture conversion carries the fixed envelope. -/
theorem claim_C8_witness :
    wDoc.runSettings = Json.obj [
      ("temperature", Json.num 1),
      ("model", Json.str "models/gemini-2.5-pro-preview-03-25"),
      ("topP", Json.num (0.95 : Rat)),
      ("topK", Json.num 64),
      ("maxOutputTokens", Json.num 65536),
      ("safetySettings", Json.arr [
        Json.obj [("category", Json.str "HARM_CATEGORY_HARASSMENT"), ("threshold", Json.str "OFF")],
        Json.obj [("category", Json.str "HARM_CATEGORY_HATE_SPEECH"), ("threshold", Json.str "OFF")],
        Json.obj [("category", Json.str "HARM_CATEGORY_SEXUALLY_EXPLICIT"), ("threshold", Json.str "OFF")],
        Json.obj [("category", Json.str "HARM_CATEGORY_DANGEROUS_CONTENT"), ("threshold", Json.str "OFF")]]),
      ("responseMimeType", Json.str "text/plain"),
      ("enableCodeExecution", Json.bool false),
      ("enableEnhancedCivicAnswers", Json.bool true),
      ("enableSearchAsATool", Json.bool false),
      ("enableBrowseAsATool", Json.bool false),
      ("enableAutoFunctionResponse", Json.bool false)] ∧
    wDoc.systemInstruction = Json.obj [] ∧
    wDoc.pendingInputs =
      Json.arr [Json.obj [("text", Json.str ""), ("role", Json.str "user")]] :=
  claim_C8 wTok wSrc wDoc wStats (by rfl)

/-- C9 counterexample: on the filename `"a.json.txt"` the code replaces the
inner `".json"` occurrence and then appends, producing
`"a_gemini.json.txt_gemini.json"`, while the claim prescribes
`"a.json.txt_gemini.json"`. -/
theorem claim_C9_counterexample :
    output_filename "a.json.txt" = "a_gemini.json.txt_gemini.json" ∧
    spec_output_filename "a.json.txt" = "a.json.txt_gemini.json" ∧
    output_filename "a.json.txt" ≠ spec_output_filename "a.json.txt" := by
  have h1 : output_filename "a.json.txt" = "a_gemini.json.txt_gemini.json" := by
    simp +decide [output_filename, pyReplace, pyEndsWith, replaceAll]
  have h2 : spec_output_filename "a.json.txt" = "a.json.txt_gemini.json" := by decide
  refine ⟨h1, h2, ?_⟩
  rw [h1, h2]
  decide

/-- C9 (amended): for every filename in which `".json"` occurs only as a
suffix, or not at all, the derived output filename is as the claim states
(suffix removed, `"_gemini.json"` appended, or `"_gemini.json"` appended
when there is no `".json"` suffix); a filename with another occurrence of
`".json"` instead has every occurrence replaced. -/
theorem claim_C9_amended (name : String)
    (h : (∀ t ∈ name.data.tails, ".json".data.isPrefixOf t = false) ∨
         ((∀ t ∈ name.data.tails, ".json".data.isPrefixOf t = true → t = ".json".data) ∧
          ".json".data.isSuffixOf name.data = true)) :
    output_filename name = spec_output_filename name := by
  have hmk : String.mk name.data = name := by
    cases name
    rfl
  rcases h with hno | ⟨hgood, hsuf⟩
  · have hrepl : replaceAll ".json".data "_gemini.json".data name.data = name.data :=
      replaceAll_no_occ _ _ _ hno
    have hnosuf : ¬ (".json".data <:+ name.data) := by
      intro hcontra
      have hmem : ".json".data ∈ name.data.tails := by
        rw [List.mem_tails]
        exact hcontra
      have := hno _ hmem
      simp [List.isPrefixOf_iff_prefix] at this
    have hends : pyEndsWith (String.mk name.data) "_gemini.json" = false := by
      simp only [pyEndsWith]
      by_contra hcontra
      simp only [Bool.not_eq_false] at hcontra
      rw [List.isSuffixOf_iff_suffix] at hcontra
      have hjs : ".json".data <:+ "_gemini.json".data := by decide
      exact hnosuf (hjs.trans hcontra)
    have hspec : (".json".data.isSuffixOf name.data) = false := by
      by_contra hcontra
      simp only [Bool.not_eq_false] at hcontra
      rw [List.isSuffixOf_iff_suffix] at hcontra
      exact hnosuf hcontra
    simp only [output_filename, pyReplace, hrepl, hmk, hends, Bool.false_eq_true, if_false,
      spec_output_filename, hspec]
  · have hsuf2 : ".json".data <:+ name.data := by
      rw [← List.isSuffixOf_iff_suffix]
      exact hsuf
    have hrepl : replaceAll ".json".data "_gemini.json".data name.data =
        name.data.take (name.data.length - ".json".data.length) ++ "_gemini.json".data :=
      replaceAll_suffix_only _ _ _ (by decide) hgood hsuf2
    have hlen : (".json".data).length = 5 := by decide
    rw [hlen] at hrepl
    have hends : pyEndsWith
        (String.mk (name.data.take (name.data.length - 5) ++ "_gemini.json".data))
        "_gemini.json" = true := by
      simp only [pyEndsWith]
      rw [List.isSuffixOf_iff_suffix]
      exact List.suffix_append _ _
    simp only [output_filename, pyReplace, hrepl, hends, if_true,
      spec_output_filename, hsuf, if_pos]
    rfl

/-- C9 amended witness: `"conv.json"` has its single, suffix-only `".json"`
occurrence rewritten, giving `"conv_gemini.json"` on both sides. -/
theorem claim_C9_amended_witness :
    ((∀ t ∈ "conv.json".data.tails, ".json".data.isPrefixOf t = false) ∨
     ((∀ t ∈ "conv.json".data.tails, ".json".data.isPrefixOf t = true → t = ".json".data) ∧
      ".json".data.isSuffixOf "conv.json".data = true)) ∧
    output_filename "conv.json" = spec_output_filename "conv.json" :=
  ⟨Or.inr (by constructor <;> decide),
   claim_C9_amended "conv.json" (Or.inr (by constructor <;> decide))⟩

/-- C10: the validation checks only the presence of `chat_messages`; a
mapping whose `chat_messages` is a non-iterable value (`null` or a number,
the claim's examples) passes validation and the traversal then fails with
a `TypeError` — an error that is neither the validation `ValueError` nor
a strict-lookup `KeyError`. -/
theorem claim_C10 (tok : String → Nat) (fields : List (String × Json)) (v : Json)
    (hkey : fields.lookup "chat_messages" = some v)
    (hv : v = .null ∨ (∃ q, v = .num q)) :
    convert_claude_to_gemini tok (.obj fields) =
      .error (.typeError "object is not iterable") ∧
    (∀ m, convert_claude_to_gemini tok (.obj fields) ≠ .error (.valueError m)) ∧
    (∀ k, convert_claude_to_gemini tok (.obj fields) ≠ .error (.keyError k)) := by
  have h1 : convert_claude_to_gemini tok (.obj fields) =
      .error (.typeError "object is not iterable") := by
    rcases hv with hv | ⟨q, hv⟩ <;> subst hv <;>
      simp [convert_claude_to_gemini, hkey, dictGet, pyIter]
  refine ⟨h1, ?_, ?_⟩
  · intro m hcontra
    rw [h1] at hcontra
    simp at hcontra
  · intro k hcontra
    rw [h1] at hcontra
    simp at hcontra

/-- C10 witness: `{"chat_messages": null}` fails with the traversal
`TypeError`, not with either classified error. -/
theorem claim_C10_witness :
    convert_claude_to_gemini wTok (.obj [("chat_messages", Json.null)]) =
      .error (.typeError "object is not iterable") ∧
    (∀ m, convert_claude_to_gemini wTok (.obj [("chat_messages", Json.null)]) ≠
      .error (.valueError m)) ∧
    (∀ k, convert_claude_to_gemini wTok (.obj [("chat_messages", Json.null)]) ≠
      .error (.keyError k)) :=
  claim_C10 wTok [("chat_messages", Json.null)] Json.null (by rfl) (Or.inl rfl)
